import Mathlib

/-!
Verification of the declarative deserialization engine of the `aiowiki`
repository.

The repository contains two revisions of the same engine:
* `src/aiowiki/models/internal.py`, `InterfaceModel.from_json` (the "A" engine
  below), together with the model declarations in `src/aiowiki/models/results.py`;
* `src/awiki/models/internal.py`, `InterfaceModel._from_json` (the "W" engine
  below), which additionally applies the per-field string transforms declared
  in a model's `__prefix_schema__` attribute.

The embedding below translates the engines as total Lean functions over

* `PyType`  — the declared-annotation language actually used by the models
  (primitives, string-backed enums, nested models, `datetime`/`date`,
  `list[T]`/`tuple[T]`, flattened unions written `T | None`, the bare builtin
  classes `list`, `tuple` and the union origin, and `CustomDeserializer`
  subclasses).  Generic aliases such as `PlatformArticle[...]` and `dict[...]`
  are outside the embedded universe; no claim refers to them.
* `JSON`    — a decoded JSON value (numbers are modelled as integers; the
  Wikimedia payloads the engine consumes carry no fractional numbers and no
  claim involves floating point).
* `Value`   — a constructed typed value; a model instance is `Value.vinst`
  with its ordered field map, mirroring the kwargs `setattr` constructor.
* `PyErr`   — the exceptions the engines raise, keyed by the diagnostic
  payloads that the Python messages carry (the spec names these
  `MissingFieldError` (`PyErr.missingValue` / `PyErr.keyError`),
  `InvalidEnumValueError` (`PyErr.invalidEnum`) and `UnsupportedTypeError`
  (`PyErr.unsupportedType`)).

Python's two unbounded `while` loops (leaf resolution) are embedded as
fuel-bounded iterations; the termination claim proves that `sizeOf` of the
type is always enough fuel to reach the loop's fixed point.  Recursion into
nested models is likewise driven by a fuel argument (`engineA` / `engineW`)
whose per-call shape is exposed through the `rec` parameter of the
field-walking functions, so theorems about a single field step hold for every
recursion depth.
-/

namespace Aiowiki

/-- The five members of the `PRIMITIVES` tuple in `constants.py`:
`(bool, str, int, float, NoneType)`. -/
inductive PrimTy where
  | boolP
  | intP
  | floatP
  | strP
  | noneP
deriving DecidableEq, Repr

/-- The declared-annotation language used by the repository's models.
`modelTy` carries the model's name, its ordered annotation list and its
`__prefix_schema__` entries.  `union ts` is a flattened PEP 604 union (what
`typing.get_args` returns for `T1 | T2 | ...`, the only union syntax the
models declare); `listClass`, `tupleClass` and `unionClass` are the bare
origins returned by `typing.get_origin` — `unionClass` is `types.UnionType`,
the origin of a PEP 604 union.  `typingUnionClass` is the distinct
`typing.Union` special form, the origin of `typing.Optional[...]` /
`typing.Union[...]` annotations: on the Python versions this repository
targets (3.11-3.13; awiki imports `typing.Never`, and both revisions predate
the 3.14 unification of the two), it is a different object from
`types.UnionType`, and no declared type of the models has it as origin. -/
inductive PyType where
  | prim (p : PrimTy)
  | enumTy (name : String) (members : List String)
  | modelTy (name : String) (fields : List (String × PyType)) (pfx : List (String × String))
  | customTy (name : String)
  | datetimeTy
  | dateTy
  | listOf (t : PyType)
  | tupleOf (t : PyType)
  | listClass
  | tupleClass
  | unionClass
  | typingUnionClass
  | union (ts : List PyType)

/-- A decoded JSON value (`num` holds integers; see the header note). -/
inductive JSON where
  | null
  | bool (b : Bool)
  | num (n : Int)
  | str (s : String)
  | arr (xs : List JSON)
  | obj (kvs : List (String × JSON))

/-- A constructed typed value.  `vfloat` values only arise from integer or
boolean raw values in this embedding, hence carry an `Int`.  `vdatetime`
tags the ISO string accepted by the stdlib parser (an external collaborator
whose internals are not part of this repository). -/
inductive Value where
  | vnull
  | vbool (b : Bool)
  | vint (n : Int)
  | vfloat (n : Int)
  | vstr (s : String)
  | venum (ename : String) (member : String)
  | vdatetime (iso : String)
  | vdate (y m d : Int)
  | vlist (xs : List Value)
  | vinst (cls : String) (fields : List (String × Value))

/-- The exceptions raised by the engines, keyed by diagnostic payload.
`keyError` is aiowiki's `data[m_name]` failure (names only the field);
`missingValue` is awiki's `ValueError` for an absent-or-null Required field
(names model, field and declared type); `invalidEnum` is the enum
constructor's `ValueError`; `unsupportedType` is the final `else` branch's
`ValueError` (names model, field and resolved type); `fuelOut` marks
exhaustion of the recursion fuel and is never produced at the fuel bounds the
entry points use. -/
inductive PyErr where
  | keyError (field : String)
  | missingValue (model field tname : String)
  | invalidEnum (ename valueRepr : String)
  | unsupportedType (model field tname : String)
  | typeError (msg : String)
  | valueError (msg : String)
  | indexError
  | notImplemented
  | fuelOut

/-! ## Type introspection (`typing.get_args` / `typing.get_origin`) -/

/-- `typing.get_args`: the flattened members of a union, the element type of
`list[T]` / `tuple[T]`, and `()` for everything else. -/
def getArgs : PyType → List PyType
  | .listOf t => [t]
  | .tupleOf t => [t]
  | .union ts => ts
  | _ => []

/-- `typing.get_origin`: the bare origin class of a parameterised type, and
`None` for plain classes. -/
def getOrigin : PyType → Option PyType
  | .listOf _ => some .listClass
  | .tupleOf _ => some .tupleClass
  | .union _ => some .unionClass
  | _ => none

/-- Does a type list contain the `NoneType` member?  (`NoneType in get_args(typed)`.) -/
def hasNoneType : List PyType → Bool
  | [] => false
  | .prim .noneP :: _ => true
  | _ :: ts => hasNoneType ts

/-- awiki's `is_optional` (`src/awiki/models/internal.py` line 118):
`get_origin(typed) is UnionType and NoneType in get_args(typed)`, where
`UnionType` is `types.UnionType` — the origin of the `T | None` declarations
the models use, so the test recognises them. -/
def is_optional (t : PyType) : Bool :=
  match getOrigin t with
  | some .unionClass => hasNoneType (getArgs t)
  | _ => false

/-- aiowiki's `is_optional` (`src/aiowiki/models/internal.py` line 109):
`get_origin(typed) is Union and NoneType in get_args(typed)`, where `Union`
is `typing.Union`.  On the targeted Pythons the origin of a PEP 604 union is
`types.UnionType`, never the `typing.Union` special form, so this test is
false on every declared type of the models (nothing in the embedded universe
has `typingUnionClass` as its origin). -/
def is_optionalA (t : PyType) : Bool :=
  match getOrigin t with
  | some .typingUnionClass => hasNoneType (getArgs t)
  | _ => false

/-- awiki's `extract_typing` with `safe=True`: `get_args(typed)[0]`, returning
the input unchanged when there are no arguments. -/
def extract_typing (t : PyType) : PyType :=
  match getArgs t with
  | [] => t
  | a :: _ => a

/-- aiowiki's `extract_typing`: `get_args(typed)[0]` with no guard; an empty
argument list raises `IndexError`. -/
def extractTypingA (t : PyType) : Except PyErr PyType :=
  match getArgs t with
  | [] => .error .indexError
  | a :: _ => .ok a

/-- Fuel-bounded iteration of awiki's leaf loop
`while typ != (extracted := extract_typing(typ)): typ = extracted`.
One step moves to `get_args(typ)[0]` when arguments exist (that step always
changes the type, because an argument is structurally smaller), and stops at
the fixed point otherwise. -/
def resolveLeafFuel : Nat → PyType → PyType
  | 0, t => t
  | n + 1, t =>
    match getArgs t with
    | [] => t
    | a :: _ => resolveLeafFuel n a

/-- awiki's resolved leaf: the limit of the loop above.  Each loop iteration
descends into `get_args(typ)[0]`, so the limit is this structural recursion
along the first-argument chain; the termination theorem shows the fuelled
loop reaches it within `leafDepth` steps. -/
def resolveLeafW : PyType → PyType
  | .listOf t => resolveLeafW t
  | .tupleOf t => resolveLeafW t
  | .union (a :: _) => resolveLeafW a
  | t => t

/-- The number of unwrap steps awiki's leaf loop performs on `t`. -/
def leafDepth : PyType → Nat
  | .listOf t => leafDepth t + 1
  | .tupleOf t => leafDepth t + 1
  | .union (a :: _) => leafDepth a + 1
  | _ => 0

/-- Fuel-bounded iteration of aiowiki's leaf loop
`while (ori := get_origin(typ)) is not None: typ = ori`. -/
def originLoopFuel : Nat → PyType → PyType
  | 0, t => t
  | n + 1, t =>
    match getOrigin t with
    | none => t
    | some o => originLoopFuel n o

/-- aiowiki's resolved leaf of a type that has already been unwrapped of
Optional and Sequence.  `get_origin` maps a parameterised type to a bare
origin class, whose own origin is `None`, so the loop runs at most one step;
fuel 2 therefore reaches the fixed point (proved in the termination
theorem). -/
def originLeaf (t : PyType) : PyType := originLoopFuel 2 t

/-- `get_origin(typ) in (list, tuple)`: the Sequence-cardinality test. -/
def isArrayOrigin (t : PyType) : Bool :=
  match getOrigin t with
  | some .listClass => true
  | some .tupleClass => true
  | _ => false

/-- The leaf types that the converter dispatch of both engines accepts:
primitives, enums, `CustomDeserializer` subclasses, nested models,
`datetime` and `date`.  Every other leaf falls into the final `else` branch
(`UnsupportedTypeError`). -/
def supportedLeaf : PyType → Bool
  | .prim _ => true
  | .enumTy _ _ => true
  | .customTy _ => true
  | .modelTy _ _ _ => true
  | .datetimeTy => true
  | .dateTy => true
  | _ => false

/-- `typ.__name__`, as interpolated into the engines' error messages. -/
def pyTypeName : PyType → String
  | .prim .boolP => "bool"
  | .prim .intP => "int"
  | .prim .floatP => "float"
  | .prim .strP => "str"
  | .prim .noneP => "NoneType"
  | .enumTy n _ => n
  | .modelTy n _ _ => n
  | .customTy n => n
  | .datetimeTy => "datetime"
  | .dateTy => "date"
  | .listOf _ => "list"
  | .tupleOf _ => "tuple"
  | .listClass => "list"
  | .tupleClass => "tuple"
  | .unionClass => "UnionType"
  | .typingUnionClass => "Union"
  | .union _ => "UnionType"

/-! ## Raw-value helpers and the scalar converters -/

/-- `value is None` on a raw value. -/
def isNullJ : JSON → Bool
  | .null => true
  | _ => false

/-- `data.get(m_name, None) is None`: true when the key is absent or its
value is null. -/
def isNullOpt : Option JSON → Bool
  | none => true
  | some v => isNullJ v

/-- A single apostrophe, the delimiter Python `repr` puts around strings. -/
def sqm : String := "'"

mutual

/-- Python `repr` of a raw value.  String repr is simplified to always use
apostrophe delimiters without escaping, which is exact for the quote-free
strings that occur in this development. -/
def pyRepr : JSON → String
  | .null => "None"
  | .bool true => "True"
  | .bool false => "False"
  | .num n => toString n
  | .str s => sqm ++ s ++ sqm
  | .arr xs => "[" ++ pyReprArr xs ++ "]"
  | .obj kvs => "\x7b" ++ pyReprObj kvs ++ "\x7d"
termination_by structural v => v

/-- Comma-joined reprs of the elements of a raw array. -/
def pyReprArr : List JSON → String
  | [] => ""
  | [x] => pyRepr x
  | x :: y :: rest => pyRepr x ++ ", " ++ pyReprArr (y :: rest)
termination_by structural xs => xs

/-- Comma-joined `key: value` reprs of the entries of a raw object. -/
def pyReprObj : List (String × JSON) → String
  | [] => ""
  | [kv] => sqm ++ kv.1 ++ sqm ++ ": " ++ pyRepr kv.2
  | kv :: kw :: rest =>
    sqm ++ kv.1 ++ sqm ++ ": " ++ pyRepr kv.2 ++ ", " ++ pyReprObj (kw :: rest)
termination_by structural kvs => kvs

end

/-- Python `str()` of a raw value: the string itself for strings, `repr`
for everything else (which coincides with `str` on the scalars). -/
def pyStr : JSON → String
  | .str s => s
  | v => pyRepr v

/-- Python truthiness, the behaviour of the `bool` constructor. -/
def truthy : JSON → Bool
  | .null => false
  | .bool b => b
  | .num n => n != 0
  | .str s => s != ""
  | .arr xs => !xs.isEmpty
  | .obj kvs => !kvs.isEmpty

/-- Digits of a decimal numeral. -/
def digitsVal : List Char → Nat
  | [] => 0
  | cs => cs.foldl (fun acc c => acc * 10 + (c.toNat - 48)) 0

/-- Parse a non-empty all-digit character list. -/
def parseDigits (cs : List Char) : Option Nat :=
  if cs ≠ [] ∧ cs.all Char.isDigit then some (digitsVal cs) else none

/-- Characters Python's `int` constructor strips from both ends. -/
def isPySpace (c : Char) : Bool := c = ' ' || c = '\t' || c = '\n' || c = '\r'

/-- Python `int(s)` on a string: strip surrounding whitespace, an optional
sign, then a non-empty digit run (digit-separating underscores are not used
by the wire formats in scope and are not modelled). -/
def pyParseInt (s : String) : Option Int :=
  let cs := (s.data.dropWhile isPySpace).reverse.dropWhile isPySpace |>.reverse
  match cs with
  | '-' :: rest => (parseDigits rest).map (fun n => -(n : Int))
  | '+' :: rest => (parseDigits rest).map (fun n => (n : Int))
  | rest => (parseDigits rest).map (fun n => (n : Int))

/-- Python `int(value)`: `TypeError` for `None` and containers, numeric
coercion for booleans and integers, decimal parsing for strings. -/
def pyIntConv : JSON → Except PyErr Value
  | .null => .error (.typeError "int() argument cannot be None")
  | .bool b => .ok (.vint (if b then 1 else 0))
  | .num n => .ok (.vint n)
  | .str s =>
    match pyParseInt s with
    | some n => .ok (.vint n)
    | none => .error (.valueError "invalid literal for int() with base 10")
  | _ => .error (.typeError "int() argument must be a string or a number")

/-- Python `float(value)`; raw numbers are integers in this embedding, so the
results are integer-valued (fractional string literals are outside the
embedding and no model declares a float field). -/
def pyFloatConv : JSON → Except PyErr Value
  | .null => .error (.typeError "float() argument cannot be None")
  | .bool b => .ok (.vfloat (if b then 1 else 0))
  | .num n => .ok (.vfloat n)
  | .str s =>
    match pyParseInt s with
    | some n => .ok (.vfloat n)
    | none => .error (.valueError "could not convert string to float")
  | _ => .error (.typeError "float() argument must be a string or a number")

/-- `method = typ` for a primitive leaf: call the primitive class on the raw
value.  `NoneType(value)` always raises `TypeError`. -/
def pyPrimConv : PrimTy → JSON → Except PyErr Value
  | .boolP, v => .ok (.vbool (truthy v))
  | .intP, v => pyIntConv v
  | .floatP, v => pyFloatConv v
  | .strP, v => .ok (.vstr (pyStr v))
  | .noneP, _ => .error (.typeError "NoneType takes no arguments")

/-- `method = typ` for an enum leaf: the enum constructor looks the raw value
up among the declared member values and raises `ValueError` (the spec's
`InvalidEnumValueError`) when nothing matches.  The repository's enums are
string-backed, so a non-string raw value never matches. -/
def pyEnumConv (ename : String) (members : List String) : JSON → Except PyErr Value
  | .str s =>
    if members.contains s then .ok (.venum ename s)
    else .error (.invalidEnum ename (pyRepr (.str s)))
  | v => .error (.invalidEnum ename (pyRepr v))

/-- `datetime.datetime.fromisoformat`: a stdlib collaborator, modelled as
tagging the string it is given (it requires a string argument). -/
def pyDatetimeConv : JSON → Except PyErr Value
  | .str s => .ok (.vdatetime s)
  | _ => .error (.typeError "fromisoformat: argument must be str")

/-- Is `y` a leap year (proleptic Gregorian, as `datetime.date` uses)? -/
def isLeapYear (y : Int) : Bool :=
  y % 4 == 0 && (y % 100 != 0 || y % 400 == 0)

/-- Days in month `m` of year `y` (only consulted for `1 ≤ m ≤ 12`). -/
def daysInMonth (y m : Int) : Int :=
  if m == 2 then (if isLeapYear y then 29 else 28)
  else if m == 4 || m == 6 || m == 9 || m == 11 then 30
  else 31

/-- `datetime.date(y, m, d)`: range validation performed by the stdlib
constructor. -/
def mkPyDate (y m d : Int) : Except PyErr Value :=
  if y < 1 || y > 9999 then .error (.valueError "year is out of range")
  else if m < 1 || m > 12 then .error (.valueError "month must be in 1..12")
  else if d < 1 || d > daysInMonth y m then
    .error (.valueError "day is out of range for month")
  else .ok (.vdate y m d)

/-- Split a character list at every `-`, Python `string.split("-")`. -/
def splitDashAux : List Char → List Char → List String
  | [], cur => [String.mk cur.reverse]
  | c :: rest, cur =>
    if c = '-' then String.mk cur.reverse :: splitDashAux rest []
    else splitDashAux rest (c :: cur)

/-- `string.split("-")`. -/
def splitDash (s : String) : List String := splitDashAux s.data []

/-- `string[:-1]`: drop the final character (identity on the empty string). -/
def dropLastChar (s : String) : String := String.mk s.data.dropLast

/-- `map(int, parts)`, forced left to right by the `*` unpacking: the first
non-numeric part raises `ValueError`. -/
def parseAllInts : List String → Except PyErr (List Int)
  | [] => .ok []
  | s :: rest =>
    match pyParseInt s with
    | none => .error (.valueError "invalid literal for int() with base 10")
    | some n =>
      match parseAllInts rest with
      | .error e => .error e
      | .ok ns => .ok (n :: ns)

/-- The date converter of both engines:
`lambda string: datetime.date(*map(int, string[:-1].split("-")))`.
A non-string raw value fails on the slice/`split` attribute access, modelled
uniformly as `TypeError`. -/
def pyDateConv : JSON → Except PyErr Value
  | .str s =>
    match parseAllInts (splitDash (dropLastChar s)) with
    | .error e => .error e
    | .ok [y, m, d] => mkPyDate y m d
    | .ok _ => .error (.typeError "date() takes exactly three arguments")
  | _ => .error (.typeError "argument to the date converter must be str")

/-- `prefix_string + value`: Python string concatenation, a `TypeError` when
the right operand is not a string. -/
def pyAdd (p : String) : JSON → Except PyErr JSON
  | .str s => .ok (.str (p ++ s))
  | _ => .error (.typeError "can only concatenate str to str")

/-! ## The engines

Both engines walk the annotation list; the only recursion is the nested-model
case, which calls back into the full engine.  That callback is abstracted as
the `rec` parameter, so a statement about one field step quantifies over
every recursion depth; the fuelled `engineA` / `engineW` then tie the knot. -/

/-- The shape of an engine entry point: model name, annotation list,
`__prefix_schema__` entries, raw value. -/
abbrev RecT :=
  String → List (String × PyType) → List (String × String) → JSON → Except PyErr Value

mutual

/-- Structural size of a declared type, used as recursion fuel for the
engines: a nested model's annotation list is strictly smaller than the
annotation list containing it. -/
def tySize : PyType → Nat
  | .prim _ => 1
  | .enumTy _ _ => 1
  | .modelTy _ fs _ => 1 + fieldListSize fs
  | .customTy _ => 1
  | .datetimeTy => 1
  | .dateTy => 1
  | .listOf t => 1 + tySize t
  | .tupleOf t => 1 + tySize t
  | .listClass => 1
  | .tupleClass => 1
  | .unionClass => 1
  | .typingUnionClass => 1
  | .union ts => 1 + tyListSize ts
termination_by structural t => t

/-- Structural size of an annotation list. -/
def fieldListSize : List (String × PyType) → Nat
  | [] => 0
  | fd :: rest => 1 + tySize fd.2 + fieldListSize rest
termination_by structural l => l

/-- Structural size of a type list. -/
def tyListSize : List PyType → Nat
  | [] => 0
  | t :: rest => 1 + tySize t + tyListSize rest
termination_by structural l => l

end

/-- The converter dispatch shared by both engine revisions (their
`issubclass` chains are identical).  `cls` and `fname` only feed the
`UnsupportedTypeError` diagnostics of the final `else` branch; a nested
model delegates to the engine callback `rec` (aiowiki ignores a model's
`__prefix_schema__`, which its `rec` simply drops). -/
def convertLeaf (rec : RecT) (cls fname : String) (leaf : PyType) (v : JSON) :
    Except PyErr Value :=
  match leaf with
  | .prim p => pyPrimConv p v
  | .enumTy n ms => pyEnumConv n ms v
  | .customTy _ => .error .notImplemented
  | .modelTy n f pfx => rec n f pfx v
  | .datetimeTy => pyDatetimeConv v
  | .dateTy => pyDateConv v
  | other => .error (.unsupportedType cls fname (pyTypeName other))

/-- `[method(v) for v in value]`: apply the resolved converter to every
element in order, propagating the first exception. -/
def convList (rec : RecT) (cls fname : String) (leaf : PyType) :
    List JSON → Except PyErr (List Value)
  | [] => .ok []
  | v :: vs =>
    match convertLeaf rec cls fname leaf v with
    | .error e => .error e
    | .ok y =>
      match convList rec cls fname leaf vs with
      | .error e => .error e
      | .ok ys => .ok (y :: ys)

/-- One iteration of aiowiki's `from_json` field loop (`internal.py` lines
30-95), producing the value stored for the field or the exception raised.
In order: the Optional short-circuit on an absent-or-null raw value (stores
null); the Optional unwrap via `extract_typing`; the
`get_origin(typ) in (list, tuple)` array test followed by re-extraction
**from the declared type** `m_type`; the `while get_origin` leaf loop;
converter dispatch (raising `UnsupportedTypeError` before the value is
fetched); the value fetch (`data[m_name]`, raising `KeyError` for a
Required field with an absent key); and element-wise or scalar conversion.
Because `is_optionalA` (the revision's `is typing.Union` test) is false on
every embedded type, the Optional short-circuit and unwrap branches are
dead code here exactly as in the real engine: a union-typed field reaches
the leaf loop unwrapped, stops at `types.UnionType` and is rejected by the
dispatch.  Iterating a non-array raw value for an array-typed field is
modelled as `TypeError` (Python would also iterate strings and dict keys;
no model and no claim exercises that). -/
def stepA (rec : RecT) (cls fname : String) (mty : PyType)
    (kvs : List (String × JSON)) : Except PyErr Value :=
  let isOpt := is_optionalA mty
  if isOpt && isNullOpt (List.lookup fname kvs) then .ok .vnull
  else
    match (if isOpt then extractTypingA mty else .ok mty) with
    | .error e => .error e
    | .ok typ0 =>
      let isArr := isArrayOrigin typ0
      match (if isArr then extractTypingA mty else .ok typ0) with
      | .error e => .error e
      | .ok typ1 =>
        let leaf := originLeaf typ1
        if supportedLeaf leaf then
          let valueE : Except PyErr JSON :=
            if isOpt then .ok ((List.lookup fname kvs).getD .null)
            else
              match List.lookup fname kvs with
              | some v => .ok v
              | none => .error (.keyError fname)
          match valueE with
          | .error e => .error e
          | .ok value =>
            if isArr then
              match value with
              | .arr xs =>
                match convList rec cls fname leaf xs with
                | .error e => .error e
                | .ok ys => .ok (.vlist ys)
              | _ => .error (.typeError "value for an array field is not iterable")
            else convertLeaf rec cls fname leaf value
        else .error (.unsupportedType cls fname (pyTypeName leaf))

/-- aiowiki's field loop: every iteration either raises or stores exactly
one value under the field's name (the Optional short-circuit stores null),
then `cls(**constructed)` builds the instance. -/
def fieldsA (rec : RecT) (cls : String) :
    List (String × PyType) → List (String × JSON) → List (String × Value) →
    Except PyErr Value
  | [], _, acc => .ok (.vinst cls acc)
  | (fname, mty) :: rest, kvs, acc =>
    match stepA rec cls fname mty kvs with
    | .error e => .error e
    | .ok y => fieldsA rec cls rest kvs (acc ++ [(fname, y)])

/-- aiowiki's engine with explicit recursion fuel; one unit is spent per
model-nesting level.  A non-dict raw value fails on the dict accesses. -/
def engineA : Nat → RecT
  | 0, _, _, _, _ => .error .fuelOut
  | n + 1, cls, flds, _, data =>
    match data with
    | .obj kvs => fieldsA (engineA n) cls flds kvs []
    | _ => .error (.typeError "from_json argument is not a dict")

/-- `InterfaceModel.from_json` of `src/aiowiki/models/internal.py`, run with
fuel `fieldListSize flds + 1`; nested schemas are structurally smaller than
their parent annotation list, so the fuel covers every nesting level. -/
def fromJsonA (cls : String) (flds : List (String × PyType)) (data : JSON) :
    Except PyErr Value :=
  engineA (fieldListSize flds + 1) cls flds [] data

/-- One iteration of awiki's `_from_json` field loop (`internal.py` lines
36-95), producing the value stored for the field or the exception raised.
In order: `data.get(m_name)` null test first (Optional stores null,
Required raises the `ValueError` the spec calls `MissingFieldError`); the
`extract_typing` fixed-point leaf loop; converter dispatch; the value
re-fetch with its (unreachable) second null test; the `__prefix_schema__`
transform applied to the whole raw value; then element-wise or scalar
conversion, where the array test `primary_is_array` was taken on the
**declared** type before any unwrapping. -/
def stepW (rec : RecT) (cls fname : String) (mty : PyType)
    (pfx : List (String × String)) (kvs : List (String × JSON)) :
    Except PyErr Value :=
  let primArr := isArrayOrigin mty
  let primOpt := is_optional mty
  let v0 := (List.lookup fname kvs).getD .null
  if isNullJ v0 then
    if primOpt then .ok .vnull
    else .error (.missingValue cls fname (pyTypeName mty))
  else
    let leaf := resolveLeafW mty
    if supportedLeaf leaf then
      let value := (List.lookup fname kvs).getD .null
      if isNullJ value then
        if primOpt then .ok .vnull
        else .error (.missingValue cls fname (pyTypeName mty))
      else
        match (match List.lookup fname pfx with
               | some p => pyAdd p value
               | none => .ok value) with
        | .error e => .error e
        | .ok value2 =>
          if primArr then
            match value2 with
            | .arr xs =>
              match convList rec cls fname leaf xs with
              | .error e => .error e
              | .ok ys => .ok (.vlist ys)
            | _ => .error (.typeError "value for an array field is not iterable")
          else convertLeaf rec cls fname leaf value2
    else .error (.unsupportedType cls fname (pyTypeName leaf))

/-- awiki's field loop: every iteration either raises or stores exactly one
value under the field's name, then `cls(**constructed)` builds the
instance. -/
def fieldsW (rec : RecT) (cls : String) (pfx : List (String × String)) :
    List (String × PyType) → List (String × JSON) → List (String × Value) →
    Except PyErr Value
  | [], _, acc => .ok (.vinst cls acc)
  | (fname, mty) :: rest, kvs, acc =>
    match stepW rec cls fname mty pfx kvs with
    | .error e => .error e
    | .ok y => fieldsW rec cls pfx rest kvs (acc ++ [(fname, y)])

/-- awiki's engine with explicit recursion fuel, spent per nesting level. -/
def engineW : Nat → RecT
  | 0, _, _, _, _ => .error .fuelOut
  | n + 1, cls, flds, pfx, data =>
    match data with
    | .obj kvs => fieldsW (engineW n) cls pfx flds kvs []
    | _ => .error (.typeError "_from_json argument is not a dict")

/-- `InterfaceModel._from_json` of `src/awiki/models/internal.py`, run with
fuel `fieldListSize flds + 1` (sufficient for the same structural reason as
`fromJsonA`). -/
def fromJsonW (cls : String) (flds : List (String × PyType))
    (pfx : List (String × String)) (data : JSON) : Except PyErr Value :=
  engineW (fieldListSize flds + 1) cls flds pfx data

/-! ## Model declarations from `src/aiowiki/models/results.py`

Every optional annotation in that file is written `T | None`, which the
embedding renders as `optNone T = union [T, none]` (the flattened
`get_args` view with `NoneType` second). -/

/-- `T | None`, as every optional field of the library is declared. -/
def optNone (t : PyType) : PyType := .union [t, .prim .noneP]

/-- `BasicImage`. -/
def BasicImage_fields : List (String × PyType) :=
  [("source", .prim .strP), ("width", .prim .intP), ("height", .prim .intP)]

/-- `Credit`. -/
def Credit_fields : List (String × PyType) :=
  [("html", .prim .strP), ("text", .prim .strP)]

/-- `Artist`. -/
def Artist_fields : List (String × PyType) :=
  [("html", .prim .strP), ("text", optNone (.prim .strP)),
   ("name", optNone (.prim .strP)), ("user_page", optNone (.prim .strP))]

/-- `EmbeddedImage`'s annotations (the `= None` defaults play no part in
deserialization). -/
def EmbeddedImage_fields : List (String × PyType) :=
  [("mimetype", .prim .strP), ("url", .prim .strP),
   ("size", optNone (.prim .intP)), ("width", optNone (.prim .intP)),
   ("height", optNone (.prim .intP)), ("duration", optNone (.prim .intP))]

/-- `EmbeddedImage.__prefix_schema__`. -/
def EmbeddedImage_pfx : List (String × String) := [("url", "https:")]

/-- `EmbeddedImage` as a declared type. -/
def EmbeddedImageT : PyType :=
  .modelTy "EmbeddedImage" EmbeddedImage_fields EmbeddedImage_pfx

/-- The member values of the `MediaType` enum.  `aiowiki/models/enums.py` is
not among the provided sources; no claim in this development depends on the
member list, only on the enum's presence in declared types. -/
def mediaTypeMembers : List String := []

/-- `MediaType` as a declared type. -/
def MediaTypeT : PyType := .enumTy "MediaType" mediaTypeMembers

/-- `Image`. -/
def Image_fields : List (String × PyType) :=
  [("mediatype", MediaTypeT), ("size", optNone (.prim .intP)),
   ("width", optNone (.prim .intP)), ("height", optNone (.prim .intP)),
   ("duration", optNone (.prim .intP)), ("url", .prim .strP)]

/-- `Image` as a declared type. -/
def ImageT : PyType := .modelTy "Image" Image_fields []

/-- `User`. -/
def User_fields : List (String × PyType) :=
  [("id", .prim .intP), ("name", .prim .strP)]

/-- `RevisionMeta`. -/
def RevisionMeta_fields : List (String × PyType) :=
  [("timestamp", .datetimeTy), ("user", .modelTy "User" User_fields [])]

/-- `License`. -/
def License_fields : List (String × PyType) :=
  [("type", .prim .strP), ("code", .prim .strP), ("url", .prim .strP)]

/-- `ArticleNamespace`. -/
def ArticleNamespace_fields : List (String × PyType) :=
  [("id", .prim .intP), ("text", .prim .strP)]

/-- `ViewShapshot` (sic). -/
def ViewShapshot_fields : List (String × PyType) :=
  [("date", .dateTy), ("views", .prim .intP)]

/-- `ArticleTitles`. -/
def ArticleTitles_fields : List (String × PyType) :=
  [("canonical", .prim .strP), ("normalized", .prim .strP),
   ("display", .prim .strP)]

/-- `File`. -/
def File_fields : List (String × PyType) :=
  [("title", .prim .strP), ("file_description_url", .prim .strP),
   ("latest", .modelTy "RevisionMeta" RevisionMeta_fields []),
   ("preferred", ImageT), ("original", ImageT),
   ("thumbnail", optNone ImageT)]

/-- `File.__prefix_schema__`. -/
def File_pfx : List (String × String) := [("file_description_url", "https:")]

/-- `SearchPageResult`. -/
def SearchPageResult_fields : List (String × PyType) :=
  [("id", .prim .intP), ("key", .prim .strP), ("title", .prim .strP),
   ("excerpt", .prim .strP), ("matched_title", optNone (.prim .strP)),
   ("description", optNone (.prim .strP)), ("thumbnail", optNone EmbeddedImageT)]

/-- `BasicImage` as a declared type. -/
def BasicImageT : PyType := .modelTy "BasicImage" BasicImage_fields []

/-- Every optional field declaration in `src/aiowiki/models/results.py`
(model name, field name, declared type), exactly the annotations written
`T | None` there.  `ArticleMeta`'s entries are listed directly because the
model's remaining fields use generic aliases outside the embedded type
universe. -/
def libraryOptionalDecls : List (String × String × PyType) :=
  [("Artist", "text", optNone (.prim .strP)),
   ("Artist", "name", optNone (.prim .strP)),
   ("Artist", "user_page", optNone (.prim .strP)),
   ("EmbeddedImage", "size", optNone (.prim .intP)),
   ("EmbeddedImage", "width", optNone (.prim .intP)),
   ("EmbeddedImage", "height", optNone (.prim .intP)),
   ("EmbeddedImage", "duration", optNone (.prim .intP)),
   ("Image", "size", optNone (.prim .intP)),
   ("Image", "width", optNone (.prim .intP)),
   ("Image", "height", optNone (.prim .intP)),
   ("Image", "duration", optNone (.prim .intP)),
   ("File", "thumbnail", optNone ImageT),
   ("SearchPageResult", "matched_title", optNone (.prim .strP)),
   ("SearchPageResult", "description", optNone (.prim .strP)),
   ("SearchPageResult", "thumbnail", optNone EmbeddedImageT),
   ("ArticleMeta", "thumbnail", optNone BasicImageT),
   ("ArticleMeta", "originalimage", optNone BasicImageT),
   ("ArticleMeta", "description", optNone (.prim .strP)),
   ("ArticleMeta", "description_source", optNone (.prim .strP))]

/-- Is a declared type of the shape `T | None` with `T` itself not the
none-type?  (The form every optional declaration of the library takes.) -/
def isTNoneShape : PyType → Bool
  | .union [.prim .noneP, .prim .noneP] => false
  | .union [_, .prim .noneP] => true
  | _ => false

/-! ## Helper lemmas -/

/-- `hasNoneType` decides membership of the none-type. -/
theorem hasNoneType_iff (ts : List PyType) :
    hasNoneType ts = true ↔ (.prim .noneP) ∈ ts := by
  induction ts with
  | nil => simp [hasNoneType]
  | cons a ts ih =>
    cases a with
    | prim p => cases p <;> simp [hasNoneType, ih]
    | _ => simp [hasNoneType, ih]

/-- While awiki's leaf loop still has fuel left beyond the chain depth, it
computes the structural leaf. -/
theorem resolveLeafFuel_eq (n : Nat) :
    ∀ t : PyType, leafDepth t ≤ n → resolveLeafFuel n t = resolveLeafW t := by
  induction n with
  | zero =>
    intro t h
    cases t with
    | listOf u => simp [leafDepth] at h
    | tupleOf u => simp [leafDepth] at h
    | union ts =>
      cases ts with
      | nil => rfl
      | cons a ts => simp [leafDepth] at h
    | _ => rfl
  | succ n ih =>
    intro t h
    cases t with
    | listOf u =>
      simp only [leafDepth] at h
      simpa [resolveLeafFuel, getArgs, resolveLeafW] using ih u (by omega)
    | tupleOf u =>
      simp only [leafDepth] at h
      simpa [resolveLeafFuel, getArgs, resolveLeafW] using ih u (by omega)
    | union ts =>
      cases ts with
      | nil => rfl
      | cons a ts =>
        simp only [leafDepth] at h
        simpa [resolveLeafFuel, getArgs, resolveLeafW] using ih a (by omega)
    | _ => rfl

/-- With fuel at least the chain depth, the fuelled loop ends on a type with
no type arguments left to extract. -/
theorem getArgs_resolveLeafFuel (n : Nat) :
    ∀ t : PyType, leafDepth t ≤ n → getArgs (resolveLeafFuel n t) = [] := by
  induction n with
  | zero =>
    intro t h
    cases t with
    | listOf u => simp [leafDepth] at h
    | tupleOf u => simp [leafDepth] at h
    | union ts =>
      cases ts with
      | nil => rfl
      | cons a ts => simp [leafDepth] at h
    | _ => rfl
  | succ n ih =>
    intro t h
    cases t with
    | listOf u =>
      simp only [leafDepth] at h
      simpa [resolveLeafFuel, getArgs] using ih u (by omega)
    | tupleOf u =>
      simp only [leafDepth] at h
      simpa [resolveLeafFuel, getArgs] using ih u (by omega)
    | union ts =>
      cases ts with
      | nil => rfl
      | cons a ts =>
        simp only [leafDepth] at h
        simpa [resolveLeafFuel, getArgs] using ih a (by omega)
    | _ => rfl

/-- The fuelled loop never moves past the structural leaf: the leaf has no
type arguments left to extract. -/
theorem getArgs_resolveLeafW (t : PyType) : getArgs (resolveLeafW t) = [] := by
  rw [← resolveLeafFuel_eq (leafDepth t) t le_rfl]
  exact getArgs_resolveLeafFuel (leafDepth t) t le_rfl

/-- The structural leaf is a fixed point of `extract_typing`. -/
theorem extract_typing_resolveLeafW (t : PyType) :
    extract_typing (resolveLeafW t) = resolveLeafW t := by
  unfold extract_typing
  rw [getArgs_resolveLeafW]

/-- aiowiki's origin loop is already at its fixed point after two steps. -/
theorem getOrigin_originLeaf (t : PyType) : getOrigin (originLeaf t) = none := by
  cases t <;> rfl

/-- Any fuel of at least two computes aiowiki's resolved origin leaf. -/
theorem originLoopFuel_stable (t : PyType) :
    ∀ n, 2 ≤ n → originLoopFuel n t = originLeaf t := by
  intro n hn
  obtain ⟨m, rfl⟩ : ∃ m, n = m + 2 := ⟨n - 2, by omega⟩
  cases t <;> rfl

/-- `data.get(k, None) is None` agrees with testing the defaulted lookup. -/
theorem isNullOpt_getD (o : Option JSON) : isNullOpt o = isNullJ (o.getD .null) := by
  cases o <;> rfl

/-- First-match association lookup skips an entry with a different key. -/
theorem lookup_cons_ne (a k : String) (v : JSON) (l : List (String × JSON))
    (h : a ≠ k) : List.lookup a ((k, v) :: l) = List.lookup a l := by
  simp [List.lookup, beq_eq_false_iff_ne.mpr h]

/-- aiowiki's Optionality test is false on every embedded declared type:
`typing.get_origin` never yields the `typing.Union` special form for the
PEP 604 unions the models declare. -/
theorem is_optionalA_false (t : PyType) : is_optionalA t = false := by
  cases t <;> rfl

/-! ## Claims -/

/-- C7: Leaf-type resolution terminates for every declared field type.
awiki's `while typ != extract_typing(typ)` loop (`resolveLeafFuel`) reaches
its fixed point — a type `extract_typing` maps to itself — within
`leafDepth t` iterations and stays there for any larger fuel, and the value
reached is the structural leaf `resolveLeafW t`; aiowiki's
`while get_origin(typ) is not None` loop (`originLoopFuel`) reaches a type
with no origin within two iterations and stays there. -/
theorem C7_leaf_resolution_terminates (t : PyType) :
    (resolveLeafFuel (leafDepth t) t = resolveLeafW t
      ∧ extract_typing (resolveLeafW t) = resolveLeafW t
      ∧ ∀ n, leafDepth t ≤ n → resolveLeafFuel n t = resolveLeafW t)
    ∧ (getOrigin (originLeaf t) = none
      ∧ ∀ n, 2 ≤ n → originLoopFuel n t = originLeaf t) :=
  ⟨⟨resolveLeafFuel_eq (leafDepth t) t le_rfl,
    extract_typing_resolveLeafW t,
    fun n hn => resolveLeafFuel_eq n t hn⟩,
   getOrigin_originLeaf t,
   originLoopFuel_stable t⟩

/-- C7 witness: the loops reach their fixed points on the concrete declared
type `list[EmbeddedImage] | None` within the stated fuel. -/
theorem C7_witness :
    leafDepth (optNone (.listOf EmbeddedImageT)) ≤ 4
    ∧ resolveLeafFuel 4 (optNone (.listOf EmbeddedImageT)) =
        resolveLeafW (optNone (.listOf EmbeddedImageT))
    ∧ originLoopFuel 2 (optNone (.listOf EmbeddedImageT)) =
        originLeaf (optNone (.listOf EmbeddedImageT)) :=
  ⟨by decide,
   (C7_leaf_resolution_terminates (optNone (.listOf EmbeddedImageT))).1.2.2 4 (by decide),
   (C7_leaf_resolution_terminates (optNone (.listOf EmbeddedImageT))).2.2 2 (by decide)⟩

/-- C5 (amended): the awiki revision's `is_optional` classifies a declared
type as Optional exactly when it is a union containing the none-type;
unwrapping such a union yields its first member, and every optional field
declaration of the library's models is written `T | None` with `T` not the
none-type (so the unwrap yields the non-null member).  The aiowiki
revision's `is_optional` instead tests `get_origin is typing.Union`, which
is false for every PEP 604 union on the targeted Pythons, so it classifies
no declared type — in particular no optional declaration of the models —
as Optional. -/
theorem C5_optionality :
    (∀ t : PyType, is_optional t = true ↔ ∃ ts, t = .union ts ∧ (.prim .noneP) ∈ ts)
    ∧ (∀ (t1 : PyType) (ts : List PyType), extract_typing (.union (t1 :: ts)) = t1)
    ∧ libraryOptionalDecls.all (fun d => isTNoneShape d.2.2) = true
    ∧ (∀ t : PyType, is_optionalA t = false) := by
  refine ⟨fun t => ?_, fun t1 ts => rfl, by decide, is_optionalA_false⟩
  constructor
  · intro h
    cases t with
    | union ts => exact ⟨ts, rfl, (hasNoneType_iff ts).mp (by simpa [is_optional, getOrigin, getArgs] using h)⟩
    | _ => simp [is_optional, getOrigin] at h
  · rintro ⟨ts, rfl, hmem⟩
    simp [is_optional, getOrigin, getArgs, (hasNoneType_iff ts).mpr hmem]

/-- C5 witness: the awiki-side classification and unwrap, and the
aiowiki-side mis-classification, on the concrete declaration
`SearchPageResult.thumbnail : EmbeddedImage | None`. -/
theorem C5_witness :
    is_optional (optNone EmbeddedImageT) = true
    ∧ extract_typing (.union (EmbeddedImageT :: [.prim .noneP])) = EmbeddedImageT
    ∧ is_optionalA (optNone EmbeddedImageT) = false :=
  ⟨(C5_optionality.1 (optNone EmbeddedImageT)).mpr ⟨[EmbeddedImageT, .prim .noneP], rfl, by simp⟩,
   C5_optionality.2.1 EmbeddedImageT [.prim .noneP],
   C5_optionality.2.2.2 (optNone EmbeddedImageT)⟩

/-- C5 counterexample: aiowiki's `is_optional` classifies the concrete
library declaration `str | None` (`SearchPageResult.matched_title`) as not
Optional, although it is a union containing the none-type — the claimed
iff fails for the aiowiki revision on every optional declaration the models
use. -/
theorem C5_counterexample :
    is_optionalA (optNone (.prim .strP)) = false
    ∧ hasNoneType (getArgs (optNone (.prim .strP))) = true := ⟨rfl, rfl⟩

/-- C2 (amended): in the awiki revision, an Optional field whose raw value
is absent or null is recorded as null and the walk continues — the step
equation holds for every engine callback `rec` and every inner structure of
the declared type, so no converter, nested-model recursion or sequence logic
runs for that field, and no exception is raised.  In the aiowiki revision
the Optional classification never fires for the models' `T | None`
declarations (`get_origin(typed) is typing.Union` is false for PEP 604
unions on the targeted Pythons): every union-typed field fails with the
unimplemented-source `ValueError` naming `UnionType`, before the raw value
is even read. -/
theorem C2_optional_null_short_circuit (fname : String) (t : PyType)
    (kvs : List (String × JSON))
    (hOpt : is_optional t = true)
    (hNull : isNullOpt (List.lookup fname kvs) = true) :
    (∀ (rec : RecT) (cls : String) (pfx : List (String × String))
        (rest : List (String × PyType)) (acc : List (String × Value)),
      fieldsW rec cls pfx ((fname, t) :: rest) kvs acc =
        fieldsW rec cls pfx rest kvs (acc ++ [(fname, .vnull)]))
    ∧ (∀ (ts : List PyType) (rec : RecT) (cls : String)
        (rest : List (String × PyType)) (acc : List (String × Value)),
      fieldsA rec cls ((fname, .union ts) :: rest) kvs acc =
        .error (.unsupportedType cls fname "UnionType")) := by
  have hNullJ : isNullJ ((List.lookup fname kvs).getD .null) = true := by
    rw [← isNullOpt_getD]; exact hNull
  constructor
  · intro rec cls pfx rest acc
    simp [fieldsW, stepW, hOpt, hNullJ]
  · intro ts rec cls rest acc
    simp [fieldsA, stepA, is_optionalA, getOrigin, isArrayOrigin, originLeaf,
      originLoopFuel, supportedLeaf, pyTypeName]

/-- C2 witness: an Optional nested-model field (`SearchPageResult.thumbnail`)
whose key is absent short-circuits to null in the awiki engine, while the
aiowiki engine rejects the same field's union type outright. -/
theorem C2_witness :
    is_optional (optNone EmbeddedImageT) = true
    ∧ isNullOpt (List.lookup "thumbnail" [("id", JSON.num 7)]) = true
    ∧ fieldsW (engineW 1) "SearchPageResult" []
        [("thumbnail", optNone EmbeddedImageT)] [("id", JSON.num 7)] [] =
        fieldsW (engineW 1) "SearchPageResult" [] [] [("id", JSON.num 7)]
          [("thumbnail", .vnull)]
    ∧ fieldsA (engineA 1) "SearchPageResult"
        [("thumbnail", optNone EmbeddedImageT)] [("id", JSON.num 7)] [] =
        .error (.unsupportedType "SearchPageResult" "thumbnail" "UnionType") :=
  ⟨rfl, rfl,
   (C2_optional_null_short_circuit "thumbnail" (optNone EmbeddedImageT)
      [("id", JSON.num 7)] rfl rfl).1 (engineW 1) "SearchPageResult" [] [] [],
   (C2_optional_null_short_circuit "thumbnail" (optNone EmbeddedImageT)
      [("id", JSON.num 7)] rfl rfl).2 [EmbeddedImageT, .prim .noneP]
      (engineA 1) "SearchPageResult" [] []⟩

/-- C2 counterexample: in the aiowiki revision an Optional field
(`str | None`) with an absent raw key is not recorded as null and an
exception is raised: the union type is never classified Optional
(`get_origin is typing.Union` is false for a PEP 604 union), the leaf
resolves to `types.UnionType`, and deserialization fails with the
unimplemented-source `ValueError`. -/
theorem C2_counterexample :
    fromJsonA "M" [("x", optNone (.prim .strP))] (.obj []) =
      .error (.unsupportedType "M" "x" "UnionType") := rfl

/-- C1 (amended): in the awiki revision, a Required field (one whose
declared type is not Optional) whose raw value is absent or null makes
deserialization fail with the `ValueError` the spec calls
`MissingFieldError`, carrying the model name and the field name, and no
instance is returned.  (Stated for the field at the head of the schema: the
engines walk fields in schema order and report the first failure.  The
aiowiki revision does not satisfy the claim; see the counterexample.) -/
theorem C1_required_missing_w (cls fname : String) (t : PyType)
    (rest : List (String × PyType)) (pfx : List (String × String))
    (kvs : List (String × JSON))
    (hReq : is_optional t = false)
    (hNull : isNullOpt (List.lookup fname kvs) = true) :
    fromJsonW cls ((fname, t) :: rest) pfx (.obj kvs) =
      .error (.missingValue cls fname (pyTypeName t)) := by
  have hNullJ : isNullJ ((List.lookup fname kvs).getD .null) = true := by
    rw [← isNullOpt_getD]; exact hNull
  simp [fromJsonW, engineW, fieldsW, stepW, hReq, hNullJ]

/-- C1 witness: a Required `int` field with an absent key fails with the
model-and-field-carrying error in the awiki revision. -/
theorem C1_witness :
    is_optional (.prim .intP) = false
    ∧ fromJsonW "SearchPageResult" [("id", .prim .intP)] [] (.obj []) =
        .error (.missingValue "SearchPageResult" "id" "int") :=
  ⟨rfl, C1_required_missing_w "SearchPageResult" "id" (.prim .intP) [] [] [] rfl rfl⟩

/-- C1 counterexample: in the aiowiki revision, a Required `str` field whose
raw value is present but null does **not** fail: `str(None)` succeeds and an
instance carrying the string `"None"` is returned, contradicting
"deserialization fails with MissingFieldError … and no instance is
returned". -/
theorem C1_counterexample :
    fromJsonA "M" [("s", .prim .strP)] (.obj [("s", .null)]) =
      .ok (.vinst "M" [("s", .vstr "None")]) := rfl

/-- C3 (amended): in the awiki engine a registered field transform is
applied to the raw value **before** the converter runs.  For a Scalar field
the converter therefore receives the prefixed raw scalar — whatever the
resolved leaf converter is — and the `EmbeddedImage` declaration with
prefix `"https:"` turns raw `"//img/e.jpg"` into `"https://img/e.jpg"` in
the output.  (The per-element part of the original claim fails for Sequence
fields; see the counterexample.) -/
theorem C3_transform_before_converter (cls fname p s : String) (t : PyType)
    (pfx : List (String × String)) (rest : List (String × PyType))
    (kvs : List (String × JSON))
    (hPfx : List.lookup fname pfx = some p)
    (hLook : List.lookup fname kvs = some (.str s))
    (hArr : isArrayOrigin t = false) :
    (∀ (rec : RecT) (acc : List (String × Value)),
      fieldsW rec cls pfx ((fname, t) :: rest) kvs acc =
        if supportedLeaf (resolveLeafW t) then
          match convertLeaf rec cls fname (resolveLeafW t) (.str (p ++ s)) with
          | .error e => .error e
          | .ok y => fieldsW rec cls pfx rest kvs (acc ++ [(fname, y)])
        else .error (.unsupportedType cls fname (pyTypeName (resolveLeafW t))))
    ∧ fromJsonW "EmbeddedImage" EmbeddedImage_fields EmbeddedImage_pfx
        (.obj [("mimetype", .str "image/jpeg"), ("url", .str "//img/e.jpg")]) =
        .ok (.vinst "EmbeddedImage"
          [("mimetype", .vstr "image/jpeg"), ("url", .vstr "https://img/e.jpg"),
           ("size", .vnull), ("width", .vnull), ("height", .vnull),
           ("duration", .vnull)]) := by
  refine ⟨fun rec acc => ?_, rfl⟩
  by_cases hs : supportedLeaf (resolveLeafW t) = true
  · simp [fieldsW, stepW, hPfx, hLook, hArr, pyAdd, hs, isNullJ]
  · simp [fieldsW, stepW, hPfx, hLook, hArr, pyAdd, hs, isNullJ]

/-- C3 witness: the step equation applied to the concrete `url` field of
`EmbeddedImage`; the converter receives the already-prefixed string. -/
theorem C3_witness :
    fieldsW (engineW 1) "EmbeddedImage" EmbeddedImage_pfx
      [("url", .prim .strP)] [("url", .str "//img/e.jpg")] [] =
      .ok (.vinst "EmbeddedImage" [("url", .vstr "https://img/e.jpg")]) := by
  have h := (C3_transform_before_converter "EmbeddedImage" "url" "https:"
    "//img/e.jpg" (.prim .strP) EmbeddedImage_pfx [] [("url", .str "//img/e.jpg")]
    rfl rfl rfl).1 (engineW 1) []
  simpa using h

/-- C3 counterexample: for a Sequence field with a registered prefix the
awiki engine prepends the prefix to the **whole** raw array (`p + value`),
which raises `TypeError`, instead of prefixing each raw element (which
would have produced `["https://a.jpg"]`). -/
theorem C3_counterexample :
    fromJsonW "M" [("urls", .listOf (.prim .strP))] [("urls", "https:")]
      (.obj [("urls", .arr [.str "//a.jpg"])]) =
      .error (.typeError "can only concatenate str to str")
    ∧ fromJsonW "M" [("urls", .listOf (.prim .strP))] [("urls", "https:")]
      (.obj [("urls", .arr [.str "//a.jpg"])]) ≠
      .ok (.vinst "M" [("urls", .vlist [.vstr "https://a.jpg"])]) := by
  have he : fromJsonW "M" [("urls", .listOf (.prim .strP))] [("urls", "https:")]
      (.obj [("urls", .arr [.str "//a.jpg"])]) =
      .error (.typeError "can only concatenate str to str") := rfl
  exact ⟨he, by rw [he]; simp⟩

/-- A successful run of the element loop `[method(v) for v in value]`
converts element-wise: the output has the input's length and the converter
maps the i-th input to the i-th output. -/
theorem convList_ok (rec : RecT) (cls fname : String) (leaf : PyType) :
    ∀ (xs : List JSON) (ys : List Value),
      convList rec cls fname leaf xs = .ok ys →
      ys.length = xs.length ∧
      ∀ (i : Nat) (h1 : i < xs.length) (h2 : i < ys.length),
        convertLeaf rec cls fname leaf (xs.get ⟨i, h1⟩) = .ok (ys.get ⟨i, h2⟩) := by
  intro xs
  induction xs with
  | nil =>
    intro ys h
    simp only [convList] at h
    obtain rfl : ([] : List Value) = ys := Except.ok.inj h
    exact ⟨rfl, fun i h1 _ => absurd h1 (by simp)⟩
  | cons v vs ih =>
    intro ys h
    simp only [convList] at h
    cases hc : convertLeaf rec cls fname leaf v with
    | error e => rw [hc] at h; exact absurd h (by simp)
    | ok y =>
      rw [hc] at h
      cases hr : convList rec cls fname leaf vs with
      | error e => rw [hr] at h; exact absurd h (by simp)
      | ok ys0 =>
        rw [hr] at h
        obtain rfl : y :: ys0 = ys := Except.ok.inj h
        obtain ⟨hlen, helt⟩ := ih ys0 hr
        refine ⟨by simp [hlen], ?_⟩
        intro i h1 h2
        cases i with
        | zero => simpa using hc
        | succ j => simpa using helt j (by simpa using h1) (by simpa using h2)

/-- C4 (amended): for a non-Optional Sequence field (`list[T]`) whose raw
value is a JSON array, both engines run the resolved leaf converter
element-wise over the raw array: the produced sequence has the input
array's length with order preserved, and an empty raw array yields an empty
output sequence (never null, never an error).  (Optional Sequence fields do
not satisfy the original claim: aiowiki rejects the union type itself; see
the counterexample.) -/
theorem C4_sequence_elementwise (cls fname : String) (t : PyType)
    (xs : List JSON) (kvs : List (String × JSON)) (pfx : List (String × String))
    (hLook : List.lookup fname kvs = some (.arr xs))
    (hPfx : List.lookup fname pfx = none) :
    (∀ (rec : RecT) (rest : List (String × PyType)) (acc : List (String × Value)),
      supportedLeaf (originLeaf t) = true →
      fieldsA rec cls ((fname, .listOf t) :: rest) kvs acc =
        match convList rec cls fname (originLeaf t) xs with
        | .error e => .error e
        | .ok ys => fieldsA rec cls rest kvs (acc ++ [(fname, .vlist ys)]))
    ∧ (∀ (rec : RecT) (rest : List (String × PyType)) (acc : List (String × Value)),
      supportedLeaf (resolveLeafW t) = true →
      fieldsW rec cls pfx ((fname, .listOf t) :: rest) kvs acc =
        match convList rec cls fname (resolveLeafW t) xs with
        | .error e => .error e
        | .ok ys => fieldsW rec cls pfx rest kvs (acc ++ [(fname, .vlist ys)]))
    ∧ (∀ (rec : RecT) (leaf : PyType) (ys : List Value),
        convList rec cls fname leaf xs = .ok ys →
        ys.length = xs.length ∧
        ∀ (i : Nat) (h1 : i < xs.length) (h2 : i < ys.length),
          convertLeaf rec cls fname leaf (xs.get ⟨i, h1⟩) = .ok (ys.get ⟨i, h2⟩))
    ∧ (∀ (rec : RecT) (leaf : PyType), convList rec cls fname leaf [] = .ok []) := by
  refine ⟨fun rec rest acc hs => ?_, fun rec rest acc hs => ?_,
    fun rec leaf ys h => convList_ok rec cls fname leaf xs ys h,
    fun rec leaf => rfl⟩
  · simp only [fieldsA, stepA, hLook, is_optionalA, getOrigin, isArrayOrigin,
      extractTypingA, getArgs, hs, isNullOpt, isNullJ, Bool.and_false, Bool.and_true,
      if_true, if_false]
    simp only [show (false = true) = False by simp, if_false]
    cases hc : convList rec cls fname (originLeaf t) xs <;> simp [hc, hs]
  · simp only [fieldsW, stepW, hLook, hPfx, is_optional, getOrigin, isArrayOrigin,
      resolveLeafW, hs, isNullJ]
    cases hc : convList rec cls fname (resolveLeafW t) xs <;> simp [hc, hs]

/-- C4 witness: a Required `list[int]` field with raw `[1, 2]` and with the
empty raw array, run end to end through both engines via the step
equations. -/
theorem C4_witness :
    fieldsA (engineA 1) "M" [("f", .listOf (.prim .intP))]
        [("f", .arr [.num 1, .num 2])] [] =
      .ok (.vinst "M" [("f", .vlist [.vint 1, .vint 2])])
    ∧ fieldsW (engineW 1) "M" [] [("f", .listOf (.prim .intP))]
        [("f", .arr [])] [] =
      .ok (.vinst "M" [("f", .vlist [])]) := by
  constructor
  · have h := (C4_sequence_elementwise "M" "f" (.prim .intP)
      [.num 1, .num 2] [("f", .arr [.num 1, .num 2])] [] rfl rfl).1
      (engineA 1) [] [] rfl
    simpa using h
  · have h := (C4_sequence_elementwise "M" "f" (.prim .intP)
      [] [("f", .arr [])] [] rfl rfl).2.1 (engineW 1) [] [] rfl
    simpa using h

/-- C4 counterexample: an Optional Sequence field
(`list[int] | None`) given the raw array `[1, 2]` in the aiowiki revision
does not produce a two-element sequence: the union is never classified
Optional (`get_origin is typing.Union` is false for a PEP 604 union), so no
unwrapping happens, the leaf loop stops at the bare `types.UnionType` class,
and deserialization fails with the unimplemented-source `ValueError` naming
`UnionType` — regardless of the raw value. -/
theorem C4_counterexample :
    fromJsonA "M" [("f", .union [.listOf (.prim .intP), .prim .noneP])]
      (.obj [("f", .arr [.num 1, .num 2])]) =
      .error (.unsupportedType "M" "f" "UnionType") := rfl

/-- C6: for an enum-typed field whose raw value is present and non-null,
both engines convert a raw value exactly equal to a declared member's value
to that member, and any raw value matching no declared member makes
deserialization fail with the enum constructor's `ValueError` (the spec's
`InvalidEnumValueError`). -/
theorem C6_enum_conversion (cls fname ename : String) (ms : List String)
    (rest : List (String × PyType)) (kvs : List (String × JSON))
    (pfx : List (String × String)) (v : JSON)
    (hLook : List.lookup fname kvs = some v)
    (hNN : isNullJ v = false)
    (hPfx : List.lookup fname pfx = none) :
    (∀ s : String, v = .str s → ms.contains s = true →
      (∀ (rec : RecT) (acc : List (String × Value)),
        fieldsA rec cls ((fname, .enumTy ename ms) :: rest) kvs acc =
          fieldsA rec cls rest kvs (acc ++ [(fname, .venum ename s)]))
      ∧ (∀ (rec : RecT) (acc : List (String × Value)),
        fieldsW rec cls pfx ((fname, .enumTy ename ms) :: rest) kvs acc =
          fieldsW rec cls pfx rest kvs (acc ++ [(fname, .venum ename s)])))
    ∧ ((∀ s : String, v = .str s → ms.contains s = false) →
      (∀ (rec : RecT) (acc : List (String × Value)),
        fieldsA rec cls ((fname, .enumTy ename ms) :: rest) kvs acc =
          .error (.invalidEnum ename (pyRepr v)))
      ∧ (∀ (rec : RecT) (acc : List (String × Value)),
        fieldsW rec cls pfx ((fname, .enumTy ename ms) :: rest) kvs acc =
          .error (.invalidEnum ename (pyRepr v)))) := by
  constructor
  · intro s hv hcont
    subst hv
    have hmem : s ∈ ms := by simpa using hcont
    constructor
    · intro rec acc
      simp [fieldsA, stepA, hLook, pyEnumConv, hmem, isNullOpt, isNullJ,
        is_optionalA, getOrigin, isArrayOrigin, originLeaf, originLoopFuel,
        supportedLeaf, extractTypingA, getArgs, convertLeaf]
    · intro rec acc
      simp [fieldsW, stepW, hLook, hPfx, pyEnumConv, hmem, isNullJ,
        is_optional, getOrigin, isArrayOrigin, resolveLeafW, supportedLeaf,
        convertLeaf]
  · intro hmiss
    have hconv : pyEnumConv ename ms v = .error (.invalidEnum ename (pyRepr v)) := by
      cases v with
      | str s =>
        have hnm : s ∉ ms := by simpa using hmiss s rfl
        simp [pyEnumConv, hnm]
      | _ => rfl
    constructor
    · intro rec acc
      simp [fieldsA, stepA, hLook, hconv, hNN, isNullOpt, isNullJ,
        is_optionalA, getOrigin, isArrayOrigin, originLeaf, originLoopFuel,
        supportedLeaf, extractTypingA, getArgs, convertLeaf]
    · intro rec acc
      simp [fieldsW, stepW, hLook, hPfx, hconv, hNN, is_optional, getOrigin,
        isArrayOrigin, resolveLeafW, supportedLeaf, convertLeaf]

/-- C6 witness: `MediaType`-style enum with members `image` and `video`:
raw `"video"` round-trips to the member, raw `"gif"` fails with the
invalid-enum error, in both engines. -/
theorem C6_witness :
    fieldsA (engineA 1) "M" [("e", .enumTy "MediaType" ["image", "video"])]
        [("e", .str "video")] [] =
      .ok (.vinst "M" [("e", .venum "MediaType" "video")])
    ∧ fieldsW (engineW 1) "M" [] [("e", .enumTy "MediaType" ["image", "video"])]
        [("e", .str "gif")] [] =
      .error (.invalidEnum "MediaType" "'gif'") := by
  constructor
  · have h := ((C6_enum_conversion "M" "e" "MediaType" ["image", "video"] []
      [("e", .str "video")] [] (.str "video") rfl rfl rfl).1 "video" rfl rfl).1
      (engineA 1) []
    simpa using h
  · have h := ((C6_enum_conversion "M" "e" "MediaType" ["image", "video"] []
      [("e", .str "gif")] [] (.str "gif") rfl rfl rfl).2
      (fun s hs => by cases hs; rfl)).2 (engineW 1) []
    simpa using h

/-- C8: the converter dispatch accepts exactly the six leaf categories
(primitive, enum, custom deserializer, nested model, datetime, date); every
other resolved leaf makes conversion — and hence deserialization, in both
engines — fail with the `ValueError` the spec calls `UnsupportedTypeError`,
whose payload names the owning model, the offending field and the resolved
type, independently of the raw value.  In the aiowiki engine the error is
raised even before the raw value is fetched. -/
theorem C8_unsupported_type (rec : RecT) (cls fname : String) (leaf : PyType)
    (v : JSON) :
    (supportedLeaf leaf = false →
      convertLeaf rec cls fname leaf v =
        .error (.unsupportedType cls fname (pyTypeName leaf)))
    ∧ (supportedLeaf leaf = true ↔
        ((∃ p, leaf = .prim p) ∨ (∃ n ms, leaf = .enumTy n ms) ∨
         (∃ n, leaf = .customTy n) ∨ (∃ n f pf, leaf = .modelTy n f pf) ∨
         leaf = .datetimeTy ∨ leaf = .dateTy))
    ∧ (∀ (t : PyType) (rest : List (String × PyType))
        (kvs : List (String × JSON)) (acc : List (String × Value))
        (vraw : JSON) (pfx : List (String × String)),
        List.lookup fname kvs = some vraw → isNullJ vraw = false →
        supportedLeaf (resolveLeafW t) = false →
        fieldsW rec cls pfx ((fname, t) :: rest) kvs acc =
          .error (.unsupportedType cls fname (pyTypeName (resolveLeafW t))))
    ∧ (∀ (t : PyType) (rest : List (String × PyType))
        (kvs : List (String × JSON)) (acc : List (String × Value)),
        is_optional t = false → isArrayOrigin t = false →
        supportedLeaf (originLeaf t) = false →
        fieldsA rec cls ((fname, t) :: rest) kvs acc =
          .error (.unsupportedType cls fname (pyTypeName (originLeaf t)))) := by
  refine ⟨fun h => ?_, ?_, fun t rest kvs acc vraw pfx hLook hNN hsup => ?_,
    fun t rest kvs acc hOpt hArr hsup => ?_⟩
  · cases leaf <;> first | rfl | simp [supportedLeaf] at h
  · cases leaf <;> simp [supportedLeaf]
  · have hNullJ : isNullJ ((List.lookup fname kvs).getD .null) = false := by
      rw [hLook]; exact hNN
    simp [fieldsW, stepW, hNullJ, hsup]
  · have hOptA : is_optionalA t = false := is_optionalA_false t
    simp [fieldsA, stepA, hOptA, hArr, hsup]

/-- C8 witness: the declared type `dict`-like leaf is not needed to exercise
the branch — the bare builtin `list` class, the actual leaf aiowiki resolves
for `list[int] | None`, is rejected with the model, field and type names in
the payload. -/
theorem C8_witness :
    supportedLeaf PyType.listClass = false
    ∧ convertLeaf (engineA 1) "FullImage" "structured" .listClass (.obj []) =
        .error (.unsupportedType "FullImage" "structured" "list") :=
  ⟨rfl, (C8_unsupported_type (engineA 1) "FullImage" "structured" .listClass
    (.obj [])).1 rfl⟩

/-- C9: the date converter parses the raw string by stripping one trailing
character, splitting the remainder on `-`, interpreting the parts as
integers and constructing year-month-day from them: raw `"2024-01-05Z"`
yields the date 2024-01-05 (also end to end through `ViewShapshot`), every
successful parse is exactly the strip-split-parse of its input within the
calendar ranges the `date` constructor enforces, and the trailing-character
strip is unconditional — the suffix-free string `"2024-01-05"` loses its
last digit and fails validation. -/
theorem C9_date_parse :
    pyDateConv (.str "2024-01-05Z") = .ok (.vdate 2024 1 5)
    ∧ pyDateConv (.str "2024-01-05") =
        .error (.valueError "day is out of range for month")
    ∧ (∀ (s : String) (y m d : Int),
        pyDateConv (.str s) = .ok (.vdate y m d) →
        parseAllInts (splitDash (dropLastChar s)) = .ok [y, m, d]
        ∧ 1 ≤ y ∧ y ≤ 9999 ∧ 1 ≤ m ∧ m ≤ 12 ∧ 1 ≤ d ∧ d ≤ daysInMonth y m)
    ∧ fromJsonW "ViewShapshot" ViewShapshot_fields []
        (.obj [("date", .str "2024-01-05Z"), ("views", .num 12)]) =
      .ok (.vinst "ViewShapshot"
        [("date", .vdate 2024 1 5), ("views", .vint 12)]) := by
  refine ⟨rfl, rfl, ?_, rfl⟩
  intro s y m d h
  simp only [pyDateConv] at h
  cases hp : parseAllInts (splitDash (dropLastChar s)) with
  | error e => rw [hp] at h; exact absurd h (by simp)
  | ok ns =>
    rw [hp] at h
    rcases ns with _ | ⟨a, _ | ⟨b, _ | ⟨c, _ | ⟨e, rest⟩⟩⟩⟩
    · exact absurd h (by simp)
    · exact absurd h (by simp)
    · exact absurd h (by simp)
    · simp only [mkPyDate] at h
      split_ifs at h with h1 h2 h3
      all_goals first
        | exact Except.noConfusion h
        | (simp only [Except.ok.injEq, Value.vdate.injEq] at h
           obtain ⟨rfl, rfl, rfl⟩ := h
           simp only [decide_eq_true_eq, Bool.or_eq_true, not_or] at h1 h2 h3
           exact ⟨rfl, by omega, by omega, by omega, by omega, by omega, by omega⟩)
    · exact absurd h (by simp)

/-- C9 witness: the characterization applied to the concrete successful
parse of `"1999-12-31Z"`. -/
theorem C9_witness :
    pyDateConv (.str "1999-12-31Z") = .ok (.vdate 1999 12 31)
    ∧ parseAllInts (splitDash (dropLastChar "1999-12-31Z")) = .ok [1999, 12, 31] :=
  ⟨rfl, (C9_date_parse.2.2.1 "1999-12-31Z" 1999 12 31 rfl).1⟩

/-- A field step of the aiowiki engine reads the raw object only through the
lookup of its own field name. -/
theorem stepA_ext (rec : RecT) (cls fname : String) (mty : PyType)
    (kvs1 kvs2 : List (String × JSON))
    (h : List.lookup fname kvs1 = List.lookup fname kvs2) :
    stepA rec cls fname mty kvs1 = stepA rec cls fname mty kvs2 := by
  simp only [stepA, h]

/-- A field step of the awiki engine reads the raw object only through the
lookup of its own field name. -/
theorem stepW_ext (rec : RecT) (cls fname : String) (mty : PyType)
    (pfx : List (String × String)) (kvs1 kvs2 : List (String × JSON))
    (h : List.lookup fname kvs1 = List.lookup fname kvs2) :
    stepW rec cls fname mty pfx kvs1 = stepW rec cls fname mty pfx kvs2 := by
  simp only [stepW, h]

/-- The aiowiki field loop depends on the raw object only through the
lookups of the schema's field names. -/
theorem fieldsA_ext (rec : RecT) (cls : String) :
    ∀ (flds : List (String × PyType)) (kvs1 kvs2 : List (String × JSON)),
      (∀ fd ∈ flds, List.lookup fd.1 kvs1 = List.lookup fd.1 kvs2) →
      ∀ acc, fieldsA rec cls flds kvs1 acc = fieldsA rec cls flds kvs2 acc := by
  intro flds
  induction flds with
  | nil => intro kvs1 kvs2 h acc; rfl
  | cons fd rest ih =>
    intro kvs1 kvs2 h acc
    obtain ⟨fname, mty⟩ := fd
    have hl := h (fname, mty) (by simp)
    have hstep := stepA_ext rec cls fname mty kvs1 kvs2 hl
    have hrest : ∀ fd ∈ rest, List.lookup fd.1 kvs1 = List.lookup fd.1 kvs2 :=
      fun fd hfd => h fd (List.mem_cons_of_mem _ hfd)
    simp only [fieldsA, hstep]
    cases hs : stepA rec cls fname mty kvs2 with
    | error e => rfl
    | ok y => exact ih kvs1 kvs2 hrest (acc ++ [(fname, y)])

/-- The awiki field loop depends on the raw object only through the lookups
of the schema's field names. -/
theorem fieldsW_ext (rec : RecT) (cls : String) (pfx : List (String × String)) :
    ∀ (flds : List (String × PyType)) (kvs1 kvs2 : List (String × JSON)),
      (∀ fd ∈ flds, List.lookup fd.1 kvs1 = List.lookup fd.1 kvs2) →
      ∀ acc, fieldsW rec cls pfx flds kvs1 acc = fieldsW rec cls pfx flds kvs2 acc := by
  intro flds
  induction flds with
  | nil => intro kvs1 kvs2 h acc; rfl
  | cons fd rest ih =>
    intro kvs1 kvs2 h acc
    obtain ⟨fname, mty⟩ := fd
    have hl := h (fname, mty) (by simp)
    have hstep := stepW_ext rec cls fname mty pfx kvs1 kvs2 hl
    have hrest : ∀ fd ∈ rest, List.lookup fd.1 kvs1 = List.lookup fd.1 kvs2 :=
      fun fd hfd => h fd (List.mem_cons_of_mem _ hfd)
    simp only [fieldsW, hstep]
    cases hs : stepW rec cls fname mty pfx kvs2 with
    | error e => rfl
    | ok y => exact ih kvs1 kvs2 hrest (acc ++ [(fname, y)])

/-- A successful aiowiki loop produces an instance of the walked class whose
field names are the accumulator's followed by the schema's, in order. -/
theorem fieldsA_shape (rec : RecT) (cls : String) :
    ∀ (flds : List (String × PyType)) (kvs : List (String × JSON))
      (acc : List (String × Value)) (c : String) (m : List (String × Value)),
      fieldsA rec cls flds kvs acc = .ok (.vinst c m) →
      c = cls ∧ m.map Prod.fst = acc.map Prod.fst ++ flds.map Prod.fst := by
  intro flds
  induction flds with
  | nil =>
    intro kvs acc c m h
    simp only [fieldsA, Except.ok.injEq, Value.vinst.injEq] at h
    obtain ⟨h1, h2⟩ := h
    exact ⟨h1.symm, by simp [h2.symm]⟩
  | cons fd rest ih =>
    intro kvs acc c m h
    obtain ⟨fname, mty⟩ := fd
    simp only [fieldsA] at h
    cases hs : stepA rec cls fname mty kvs with
    | error e => rw [hs] at h; exact Except.noConfusion h
    | ok y =>
      rw [hs] at h
      obtain ⟨hc, hm⟩ := ih kvs (acc ++ [(fname, y)]) c m h
      refine ⟨hc, ?_⟩
      rw [hm]; simp

/-- A successful awiki loop produces an instance of the walked class whose
field names are the accumulator's followed by the schema's, in order. -/
theorem fieldsW_shape (rec : RecT) (cls : String) (pfx : List (String × String)) :
    ∀ (flds : List (String × PyType)) (kvs : List (String × JSON))
      (acc : List (String × Value)) (c : String) (m : List (String × Value)),
      fieldsW rec cls pfx flds kvs acc = .ok (.vinst c m) →
      c = cls ∧ m.map Prod.fst = acc.map Prod.fst ++ flds.map Prod.fst := by
  intro flds
  induction flds with
  | nil =>
    intro kvs acc c m h
    simp only [fieldsW, Except.ok.injEq, Value.vinst.injEq] at h
    obtain ⟨h1, h2⟩ := h
    exact ⟨h1.symm, by simp [h2.symm]⟩
  | cons fd rest ih =>
    intro kvs acc c m h
    obtain ⟨fname, mty⟩ := fd
    simp only [fieldsW] at h
    cases hs : stepW rec cls fname mty pfx kvs with
    | error e => rw [hs] at h; exact Except.noConfusion h
    | ok y =>
      rw [hs] at h
      obtain ⟨hc, hm⟩ := ih kvs (acc ++ [(fname, y)]) c m h
      refine ⟨hc, ?_⟩
      rw [hm]; simp

/-- C10: deserialization ignores raw keys that name no schema field — in
both engines, prepending such a key to the raw object changes nothing about
the result (in particular it raises no error), and a successful run returns
an instance of the requested class whose field names are exactly the
schema's field names in schema order, so unknown keys never appear in the
instance.  (The engines are pure: the raw object is only ever read through
`data.get`/`data[...]` lookups, which this invariance makes observable.) -/
theorem C10_unknown_keys_ignored (cls : String) (flds : List (String × PyType))
    (pfx : List (String × String)) :
    (∀ (k : String) (v : JSON) (kvs : List (String × JSON)),
      (∀ fd ∈ flds, fd.1 ≠ k) →
      fromJsonA cls flds (.obj ((k, v) :: kvs)) = fromJsonA cls flds (.obj kvs)
      ∧ fromJsonW cls flds pfx (.obj ((k, v) :: kvs)) =
          fromJsonW cls flds pfx (.obj kvs))
    ∧ (∀ (data : JSON) (c : String) (m : List (String × Value)),
      (fromJsonA cls flds data = .ok (.vinst c m) →
        c = cls ∧ m.map Prod.fst = flds.map Prod.fst)
      ∧ (fromJsonW cls flds pfx data = .ok (.vinst c m) →
        c = cls ∧ m.map Prod.fst = flds.map Prod.fst)) := by
  constructor
  · intro k v kvs hk
    have hlk : ∀ fd ∈ flds, List.lookup fd.1 ((k, v) :: kvs) = List.lookup fd.1 kvs :=
      fun fd hfd => lookup_cons_ne fd.1 k v kvs (hk fd hfd)
    constructor
    · simp only [fromJsonA, engineA]
      exact fieldsA_ext _ cls flds ((k, v) :: kvs) kvs hlk []
    · simp only [fromJsonW, engineW]
      exact fieldsW_ext _ cls pfx flds ((k, v) :: kvs) kvs hlk []
  · intro data c m
    constructor
    · intro h
      cases data with
      | obj kvs =>
        simp only [fromJsonA, engineA] at h
        simpa using fieldsA_shape _ cls flds kvs [] c m h
      | _ => simp only [fromJsonA, engineA] at h; exact Except.noConfusion h
    · intro h
      cases data with
      | obj kvs =>
        simp only [fromJsonW, engineW] at h
        simpa using fieldsW_shape _ cls pfx flds kvs [] c m h
      | _ => simp only [fromJsonW, engineW] at h; exact Except.noConfusion h

/-- C10 witness: an unknown key `"extra"` changes nothing on a concrete
schema, and the constructed instance carries exactly the schema's field
names. -/
theorem C10_witness :
    fromJsonA "User" User_fields
        (.obj [("extra", .str "ignored"), ("id", .num 1), ("name", .str "a")]) =
      fromJsonA "User" User_fields (.obj [("id", .num 1), ("name", .str "a")])
    ∧ ("User" = "User" ∧ [("id", Value.vint 1), ("name", Value.vstr "a")].map Prod.fst =
        User_fields.map Prod.fst) :=
  ⟨((C10_unknown_keys_ignored "User" User_fields []).1 "extra" (.str "ignored")
      [("id", .num 1), ("name", .str "a")] (by decide)).1,
   ((C10_unknown_keys_ignored "User" User_fields []).2
      (.obj [("id", .num 1), ("name", .str "a")]) "User"
      [("id", .vint 1), ("name", .vstr "a")]).1 rfl⟩

end Aiowiki
